import Mathlib

set_option maxRecDepth 4000

/-! Shallow embedding of the flow-graph builder of the flows-data-viz repository.
The builder lives in the `SankeyDiagram` component: it turns a list of grant
records and a recipient-profile mapping into a node list and a link list for a
Sankey layout.  JavaScript numbers produced by `parseFloat` on the flow-rate
strings are modelled by `JsNum` (NaN, signed infinity, or an exact rational;
the decimal strings handled by the claims are exactly representable, so `ℚ`
stands in for float64).  The insertion-ordered JavaScript `Map` is modelled by
an association list with JS `Map.set`/`has`/`delete` semantics. -/

/-- Result of JavaScript `parseFloat`: NaN, a signed infinity, or a finite value. -/
inductive JsNum where
  | nan : JsNum
  | inf (neg : Bool) : JsNum
  | num (q : ℚ) : JsNum
deriving DecidableEq, Repr

/-- JS `x === 0` (NaN and infinities compare unequal to 0). -/
def jsEq0 : JsNum → Bool
  | .num q => decide (q = 0)
  | _ => false

/-- JS `x <= 0` (false for NaN, true for -Infinity, false for +Infinity). -/
def jsLe0 : JsNum → Bool
  | .num q => decide (q ≤ 0)
  | .inf neg => neg
  | .nan => false

/-- JS `x > 0` (false for NaN and -Infinity, true for +Infinity). -/
def jsGt0 : JsNum → Bool
  | .num q => decide (0 < q)
  | .inf neg => !neg
  | .nan => false

/-- Whitespace characters skipped by JS `parseFloat`. -/
def isJsWhitespace (c : Char) : Bool :=
  c = ' ' || c = '\t' || c = '\n' || c = '\r' || c = Char.ofNat 11 || c = Char.ofNat 12

/-- Digit list to natural number, most significant first. -/
def digitsToNat (ds : List Char) : Nat :=
  ds.foldl (fun n c => 10 * n + (c.toNat - '0'.toNat)) 0

/-- JS `parseFloat`: skip whitespace, optional sign, then the longest prefix that
is `Infinity` or a decimal literal (digits, optional fraction, optional
exponent); no valid prefix yields NaN. -/
def parseFloat (s : String) : JsNum :=
  let cs0 := s.data.dropWhile isJsWhitespace
  let sgnNeg : Bool := match cs0 with
    | '-' :: _ => true
    | _ => false
  let cs : List Char := match cs0 with
    | '+' :: rest => rest
    | '-' :: rest => rest
    | _ => cs0
  if cs.take 8 = "Infinity".data then JsNum.inf sgnNeg
  else
    let intDigits := cs.takeWhile Char.isDigit
    let cs1 := cs.drop intDigits.length
    let fracDigits : List Char := match cs1 with
      | '.' :: rest => rest.takeWhile Char.isDigit
      | _ => []
    let cs2 : List Char := match cs1 with
      | '.' :: rest => rest.drop fracDigits.length
      | _ => cs1
    if intDigits.isEmpty && fracDigits.isEmpty then JsNum.nan
    else
      let exp : Int := match cs2 with
        | 'e' :: rest => parseExp rest
        | 'E' :: rest => parseExp rest
        | _ => 0
      let mant : Nat := digitsToNat (intDigits ++ fracDigits)
      let sNum : Int := if sgnNeg then -(mant : Int) else (mant : Int)
      let e10 : Int := exp - (fracDigits.length : Int)
      JsNum.num (if 0 ≤ e10 then mkRat (sNum * ((10 : Nat) ^ e10.toNat : Nat)) 1
                 else mkRat sNum ((10 : Nat) ^ (-e10).toNat))
where
  /-- Exponent part after `e`/`E`: optional sign then digits; no digits means
  the exponent marker is not part of the parsed prefix (treated as 0). -/
  parseExp (rest : List Char) : Int :=
    let (eNeg, rest2) : Bool × List Char := match rest with
      | '+' :: r => (false, r)
      | '-' :: r => (true, r)
      | _ => (false, rest)
    let eDigits := rest2.takeWhile Char.isDigit
    if eDigits.isEmpty then 0
    else if eNeg then -(digitsToNat eDigits : Int) else (digitsToNat eDigits : Int)

/-- A grant record as fetched by the app (`GrantItem` in the source). -/
structure GrantItem where
  title : String
  status : Int
  recipient : String
  monthlyIncomingFlowRate : String
  monthlyOutgoingFlowRate : String
  flowId : Option String
  isFlow : Bool
  id : String
deriving DecidableEq, Repr

/-- The fields of a Neynar user profile that the builder reads. -/
structure NeynarUserProfile where
  display_name : String
  username : String
deriving DecidableEq, Repr

/-- Profile mapping keyed by lowercased recipient address. -/
abbrev Profiles := List (String × NeynarUserProfile)

/-- JS `String.prototype.toLowerCase` (ASCII case mapping suffices for the
hex addresses this app handles). -/
def jsToLower (s : String) : String := ⟨s.data.map Char.toLower⟩

/-- Lookup in the profile mapping (`recipientProfiles[addr]`). -/
def profGet? (ps : Profiles) (k : String) : Option NeynarUserProfile :=
  (ps.find? (fun p => decide (p.1 = k))).map Prod.snd

/-- A node of the Sankey graph (`LocalSankeyNode`); absent JS fields are `none`. -/
structure LocalSankeyNode where
  nodeId : String
  name : String
  title : Option String := none
  originalData : Option GrantItem := none
  isRecipient : Option Bool := none
  isFlow : Option Bool := none
  username : Option String := none
  profileUrl : Option String := none
  flowUrl : Option String := none
  itemUrl : Option String := none
deriving DecidableEq, Repr

/-- A link of the Sankey graph (`LocalSankeyLink`) before layout. -/
structure LocalSankeyLink where
  source : String
  target : String
  value : JsNum
deriving DecidableEq, Repr

/-- The JS `Map<string, LocalSankeyNode>` as an insertion-ordered association list. -/
abbrev NodesMap := List (String × LocalSankeyNode)

/-- JS `Map.has`. -/
def mapHas (m : NodesMap) (k : String) : Bool :=
  m.any (fun p => decide (p.1 = k))

/-- JS `Map.get` (first — and with unique keys, only — entry for `k`). -/
def mapGet? (m : NodesMap) (k : String) : Option LocalSankeyNode :=
  (m.find? (fun p => decide (p.1 = k))).map Prod.snd

/-- JS `Map.set`: replace in place when the key exists, else append. -/
def mapSet (m : NodesMap) (k : String) (v : LocalSankeyNode) : NodesMap :=
  if mapHas m k then m.map (fun p => if p.1 = k then (k, v) else p)
  else m ++ [(k, v)]

/-- JS `Map.delete`. -/
def mapDelete (m : NodesMap) (k : String) : NodesMap :=
  m.filter (fun p => decide (p.1 ≠ k))

/-- The reserved id of the synthetic Funding Source node. -/
def FUNDING_SOURCE_ID : String := "___funding_source___"

/-- Recipient node id: `recipient_<address>`, case-preserving. -/
def recipientIdOf (addr : String) : String := "recipient_" ++ addr

/-- The synthetic Funding Source node. -/
def fundingSourceNode : LocalSankeyNode :=
  { nodeId := FUNDING_SOURCE_ID, name := "Funding Source" }

/-- Grant node built in the first pass (`nodesMap.set(item.id, ...)`). -/
def grantNode (item : GrantItem) : LocalSankeyNode :=
  { nodeId := item.id
    name := if item.title = "" then item.id else item.title
    title := some item.title
    originalData := some item
    isFlow := some item.isFlow
    flowUrl := if item.isFlow then some ("https://flows.wtf/flow/" ++ item.id) else none
    itemUrl := some ("https://flows.wtf/item/" ++ item.id) }

/-- Terminal grant test: `parseFloat(outgoing) === 0 && item.recipient` truthy. -/
def isTerminal (item : GrantItem) : Bool :=
  jsEq0 (parseFloat item.monthlyOutgoingFlowRate) && decide (item.recipient ≠ "")

/-- Recipient node synthesized for a terminal grant, with profile decoration
looked up under the lowercased address. -/
def recipientNodeFor (profiles : Profiles) (item : GrantItem) : LocalSankeyNode :=
  match profGet? profiles (jsToLower item.recipient) with
  | some p =>
      { nodeId := recipientIdOf item.recipient
        name := p.display_name ++ " (" ++ p.username ++ ")"
        title := some ("Recipient: " ++ p.display_name)
        isRecipient := some true
        username := some p.username
        profileUrl := some ("https://warpcast.com/" ++ p.username) }
  | none =>
      { nodeId := recipientIdOf item.recipient
        name := item.recipient
        title := some ("Recipient: " ++ item.recipient)
        isRecipient := some true }

/-- First pass: one grant node per item, last occurrence of a duplicated id wins. -/
def addGrantNodes (m : NodesMap) (items : List GrantItem) : NodesMap :=
  items.foldl (fun m item => mapSet m item.id (grantNode item)) m

/-- Second pass: recipient nodes for terminal grants, added only when the id is
not already present (first occurrence wins). -/
def addRecipientNodes (profiles : Profiles) (m : NodesMap) (items : List GrantItem) : NodesMap :=
  items.foldl (fun m item =>
    if isTerminal item then
      let rid := recipientIdOf item.recipient
      if mapHas m rid then m else mapSet m rid (recipientNodeFor profiles item)
    else m) m

/-- The node map after all three node passes (funding source, grants, recipients). -/
def fullNodesMap (items : List GrantItem) (profiles : Profiles) : NodesMap :=
  addRecipientNodes profiles (addGrantNodes [(FUNDING_SOURCE_ID, fundingSourceNode)] items) items

/-- Link source: the grant's `flowId` when truthy and present in the map, else
the Funding Source (`sourceNodeId && nodesMap.has(sourceNodeId) ? ... : ...`). -/
def actualSourceOf (m : NodesMap) (item : GrantItem) : String :=
  match item.flowId with
  | some sid => if decide (sid ≠ "") && mapHas m sid then sid else FUNDING_SOURCE_ID
  | none => FUNDING_SOURCE_ID

/-- Inbound link contributed by one item in the second (link) pass: skipped when
`value <= 0` (hence NOT skipped for NaN) or when the target id is absent. -/
def inboundLinkFor (m : NodesMap) (item : GrantItem) : Option LocalSankeyLink :=
  let value := parseFloat item.monthlyIncomingFlowRate
  if jsLe0 value then none
  else if mapHas m item.id then
    some { source := actualSourceOf m item, target := item.id, value := value }
  else none

/-- Terminal link contributed by one item: grant → recipient node, gated on
`grantValue > 0` (false for NaN) and presence of the recipient node. -/
def terminalLinkFor (m : NodesMap) (item : GrantItem) : Option LocalSankeyLink :=
  if isTerminal item then
    let grantValue := parseFloat item.monthlyIncomingFlowRate
    if jsGt0 grantValue && mapHas m (recipientIdOf item.recipient) then
      some { source := item.id, target := recipientIdOf item.recipient, value := grantValue }
    else none
  else none

/-- The link list before filtering: all inbound links, then all terminal links,
both computed against the full node map. -/
def preFilterLinks (items : List GrantItem) (profiles : Profiles) : List LocalSankeyLink :=
  let m := fullNodesMap items profiles
  items.filterMap (inboundLinkFor m) ++ items.filterMap (terminalLinkFor m)

/-- Drop the Funding Source node when no link has it as source. -/
def removeUnusedFundingSource (m : NodesMap) (links : List LocalSankeyLink) : NodesMap :=
  if links.any (fun l => decide (l.source = FUNDING_SOURCE_ID)) then m
  else mapDelete m FUNDING_SOURCE_ID

/-- Whether some link touches the given id as source or target. -/
def touches (links : List LocalSankeyLink) (id : String) : Bool :=
  links.any (fun l => decide (l.source = id) || decide (l.target = id))

/-- Keep only nodes touched by some link. -/
def filterNodes (m : NodesMap) (links : List LocalSankeyLink) : NodesMap :=
  m.filter (fun p => touches links p.1)

/-- Keep only links whose both endpoints survive in the node map. -/
def filterLinks (m : NodesMap) (links : List LocalSankeyLink) : List LocalSankeyLink :=
  links.filter (fun l => mapHas m l.source && mapHas m l.target)

/-- The connectivity filter: drop untouched nodes, then dangling links. -/
def connectivityFilter (m : NodesMap) (links : List LocalSankeyLink) :
    NodesMap × List LocalSankeyLink :=
  (filterNodes m links, filterLinks (filterNodes m links) links)

/-- Final graph value handed to the Sankey layout. -/
structure Graph where
  nodes : List LocalSankeyNode
  links : List LocalSankeyLink
deriving DecidableEq, Repr

/-- The whole builder: node passes, link passes, funding-source removal,
connectivity filter. -/
def buildGraph (items : List GrantItem) (profiles : Profiles) : Graph :=
  let links := preFilterLinks items profiles
  let m := removeUnusedFundingSource (fullNodesMap items profiles) links
  let fl := connectivityFilter m links
  { nodes := fl.1.map Prod.snd, links := fl.2 }

/-- The single-grant input of the spec's worked example. -/
def exGrant1 : GrantItem :=
  { title := "Grant 1", status := 1, recipient := "0xabc"
    monthlyIncomingFlowRate := "100", monthlyOutgoingFlowRate := "0"
    flowId := none, isFlow := false, id := "g1" }

/-- The same grant with zero incoming flow. -/
def exGrant1Zero : GrantItem := { exGrant1 with monthlyIncomingFlowRate := "0" }

/-! ### Association-list map lemmas -/

theorem mapHas_iff {m : NodesMap} {k : String} :
    mapHas m k = true ↔ ∃ p ∈ m, p.1 = k := by
  simp [mapHas, List.any_eq_true]

theorem mapGet?_isSome_iff {m : NodesMap} {k : String} :
    (mapGet? m k).isSome = true ↔ mapHas m k = true := by
  simp [mapGet?, mapHas, Option.isSome_map', List.find?_isSome, List.any_eq_true]

theorem mapHas_of_mapGet?_eq_some {m : NodesMap} {k : String} {v : LocalSankeyNode}
    (h : mapGet? m k = some v) : mapHas m k = true := by
  rw [← mapGet?_isSome_iff, h]
  rfl

theorem mapGet?_eq_none_of_not_has {m : NodesMap} {k : String}
    (h : mapHas m k = false) : mapGet? m k = none := by
  cases he : mapGet? m k with
  | none => rfl
  | some v => rw [mapHas_of_mapGet?_eq_some he] at h; cases h

theorem mapHas_cons {p : String × LocalSankeyNode} {m : NodesMap} {k : String} :
    mapHas (p :: m) k = (decide (p.1 = k) || mapHas m k) := by
  simp [mapHas]

theorem mapGet?_cons {p : String × LocalSankeyNode} {m : NodesMap} {k : String} :
    mapGet? (p :: m) k = if p.1 = k then some p.2 else mapGet? m k := by
  by_cases h : p.1 = k <;> simp [mapGet?, List.find?_cons, h]

theorem mapGet?_append {m₁ m₂ : NodesMap} {k : String} :
    mapGet? (m₁ ++ m₂) k
      = match mapGet? m₁ k with
        | some v => some v
        | none => mapGet? m₂ k := by
  induction m₁ with
  | nil => simp [mapGet?]
  | cons p m ih =>
    by_cases h : p.1 = k <;> simp [mapGet?_cons, h, ih]

theorem mapGet?_rewriteKey {m : NodesMap} {k : String} (v : LocalSankeyNode) :
    mapGet? (m.map (fun p => if p.1 = k then (k, v) else p)) k
      = if mapHas m k then some v else none := by
  induction m with
  | nil => simp [mapGet?, mapHas]
  | cons p m ih =>
    by_cases h : p.1 = k
    · simp [mapGet?_cons, mapHas_cons, h]
    · simp only [List.map_cons, if_neg h]
      rw [mapGet?_cons, mapHas_cons]
      simp [h, ih]

theorem mapGet?_mapSet_self (m : NodesMap) (k : String) (v : LocalSankeyNode) :
    mapGet? (mapSet m k v) k = some v := by
  unfold mapSet
  by_cases h : mapHas m k = true
  · rw [if_pos h, mapGet?_rewriteKey, if_pos h]
  · rw [if_neg h, mapGet?_append]
    rw [mapGet?_eq_none_of_not_has (by simpa using h)]
    simp [mapGet?_cons]

theorem mapGet?_rewriteKey_ne {m : NodesMap} {k k' : String} (v : LocalSankeyNode)
    (h : k' ≠ k) :
    mapGet? (m.map (fun p => if p.1 = k then (k, v) else p)) k' = mapGet? m k' := by
  have hkk : ¬ (k = k') := fun e => h e.symm
  induction m with
  | nil => rfl
  | cons p m ih =>
    by_cases hp : p.1 = k
    · simp [mapGet?_cons, hp, hkk, ih]
    · simp [mapGet?_cons, hp, ih]

theorem mapGet?_mapSet_ne (m : NodesMap) {k k' : String} (v : LocalSankeyNode)
    (h : k' ≠ k) : mapGet? (mapSet m k v) k' = mapGet? m k' := by
  unfold mapSet
  by_cases hh : mapHas m k = true
  · rw [if_pos hh, mapGet?_rewriteKey_ne v h]
  · rw [if_neg hh, mapGet?_append]
    cases hg : mapGet? m k' with
    | some w => rfl
    | none =>
      have hkk : ¬ (k = k') := fun e => h e.symm
      simp [mapGet?_cons, mapGet?, hkk]

theorem mapSet_fst (m : NodesMap) (k : String) (v : LocalSankeyNode) :
    (mapSet m k v).map Prod.fst
      = if mapHas m k then m.map Prod.fst else m.map Prod.fst ++ [k] := by
  unfold mapSet
  by_cases hh : mapHas m k
  · rw [if_pos hh, if_pos hh, List.map_map]
    apply List.map_congr_left
    intro p hp
    by_cases h : p.1 = k <;> simp [h]
  · simp [hh]

theorem mapHas_eq_keys_any (m : NodesMap) (k : String) :
    mapHas m k = (m.map Prod.fst).any (fun x => decide (x = k)) := by
  induction m with
  | nil => rfl
  | cons p m ih => simp [mapHas_cons, ih]

theorem mapHas_mapSet (m : NodesMap) (k : String) (v : LocalSankeyNode) (k' : String) :
    mapHas (mapSet m k v) k' = (mapHas m k' || decide (k = k')) := by
  rw [mapHas_eq_keys_any, mapSet_fst]
  by_cases hh : mapHas m k
  · rw [if_pos hh, ← mapHas_eq_keys_any]
    by_cases hk : k = k'
    · subst hk
      simp [hh]
    · simp [hk]
  · rw [if_neg hh, List.any_append, ← mapHas_eq_keys_any]
    simp

theorem mapHas_mapDelete_self (m : NodesMap) (k : String) :
    mapHas (mapDelete m k) k = false := by
  by_cases h : mapHas (mapDelete m k) k = true
  · exfalso
    obtain ⟨p, hp, he⟩ := mapHas_iff.mp h
    rw [mapDelete, List.mem_filter] at hp
    exact absurd he (by simpa using hp.2)
  · simpa using h

theorem mapHas_mapDelete_ne (m : NodesMap) {k k' : String} (h : k' ≠ k) :
    mapHas (mapDelete m k) k' = mapHas m k' := by
  cases hm : mapHas m k' with
  | true =>
    obtain ⟨p, hp, he⟩ := mapHas_iff.mp hm
    apply mapHas_iff.mpr
    refine ⟨p, ?_, he⟩
    rw [mapDelete, List.mem_filter]
    exact ⟨hp, by simp [he, h]⟩
  | false =>
    by_cases hd : mapHas (mapDelete m k) k' = true
    · exfalso
      obtain ⟨p, hp, he⟩ := mapHas_iff.mp hd
      rw [mapDelete, List.mem_filter] at hp
      have hmm : mapHas m k' = true := mapHas_iff.mpr ⟨p, hp.1, he⟩
      rw [hm] at hmm
      cases hmm
    · simpa using hd

/-! ### Node-pass lemmas -/

theorem addGrantNodes_nil (m : NodesMap) : addGrantNodes m [] = m := rfl

theorem addGrantNodes_cons (m : NodesMap) (it : GrantItem) (rest : List GrantItem) :
    addGrantNodes m (it :: rest) = addGrantNodes (mapSet m it.id (grantNode it)) rest := rfl

theorem addRecipientNodes_nil (p : Profiles) (m : NodesMap) :
    addRecipientNodes p m [] = m := rfl

theorem addRecipientNodes_cons (p : Profiles) (m : NodesMap) (it : GrantItem)
    (rest : List GrantItem) :
    addRecipientNodes p m (it :: rest)
      = addRecipientNodes p
          (if isTerminal it then
            (if mapHas m (recipientIdOf it.recipient) then m
             else mapSet m (recipientIdOf it.recipient) (recipientNodeFor p it))
           else m) rest := rfl

theorem mapHas_addGrantNodes_mono {m : NodesMap} {k : String} (items : List GrantItem)
    (h : mapHas m k = true) : mapHas (addGrantNodes m items) k = true := by
  induction items generalizing m with
  | nil => exact h
  | cons it rest ih =>
    rw [addGrantNodes_cons]
    exact ih (by simp [mapHas_mapSet, h])

theorem mapHas_addRecipientNodes_mono (p : Profiles) {m : NodesMap} {k : String}
    (items : List GrantItem) (h : mapHas m k = true) :
    mapHas (addRecipientNodes p m items) k = true := by
  induction items generalizing m with
  | nil => exact h
  | cons it rest ih =>
    rw [addRecipientNodes_cons]
    apply ih
    split
    · split
      · exact h
      · simp [mapHas_mapSet, h]
    · exact h

theorem mapHas_addGrantNodes_of_mem {m : NodesMap} {items : List GrantItem}
    {item : GrantItem} (h : item ∈ items) :
    mapHas (addGrantNodes m items) item.id = true := by
  induction items generalizing m with
  | nil => cases h
  | cons it rest ih =>
    rw [addGrantNodes_cons]
    rcases List.mem_cons.mp h with he | hm
    · subst he
      exact mapHas_addGrantNodes_mono rest (by simp [mapHas_mapSet])
    · exact ih hm

theorem mapHas_fullNodesMap_of_mem {items : List GrantItem} {profiles : Profiles}
    {item : GrantItem} (h : item ∈ items) :
    mapHas (fullNodesMap items profiles) item.id = true :=
  mapHas_addRecipientNodes_mono _ _ (mapHas_addGrantNodes_of_mem h)

theorem addGrantNodes_get (m : NodesMap) (items : List GrantItem) (k : String) :
    mapGet? (addGrantNodes m items) k
      = match (items.filter (fun it => decide (it.id = k))).getLast? with
        | some itL => some (grantNode itL)
        | none => mapGet? m k := by
  induction items generalizing m with
  | nil => rfl
  | cons it rest ih =>
    rw [addGrantNodes_cons, ih]
    by_cases hid : it.id = k
    · rw [List.filter_cons_of_pos (by simp [hid])]
      cases hfl : rest.filter (fun it => decide (it.id = k)) with
      | nil =>
        subst hid
        simp [mapGet?_mapSet_self]
      | cons b l =>
        rw [List.getLast?_cons_cons]
        cases hgl : (b :: l).getLast? with
        | none => exact absurd (List.getLast?_eq_none_iff.mp hgl) (by simp)
        | some itL => rfl
    · rw [List.filter_cons_of_neg (by simp [hid])]
      cases hgl : (rest.filter (fun it => decide (it.id = k))).getLast? with
      | none => exact mapGet?_mapSet_ne m (grantNode it) (fun e => hid e.symm)
      | some itL => rfl

theorem addRecipientNodes_get (p : Profiles) (m : NodesMap) (items : List GrantItem)
    (k : String) :
    mapGet? (addRecipientNodes p m items) k
      = match mapGet? m k with
        | some v => some v
        | none =>
          (items.find? (fun it => isTerminal it && decide (recipientIdOf it.recipient = k))).map
            (recipientNodeFor p) := by
  induction items generalizing m with
  | nil =>
    cases hg : mapGet? m k <;> simp [addRecipientNodes_nil, hg]
  | cons it rest ih =>
    rw [addRecipientNodes_cons, ih]
    by_cases hterm : isTerminal it = true
    · by_cases hrid : recipientIdOf it.recipient = k
      · rw [List.find?_cons_of_pos _ (by simp [hterm, hrid])]
        by_cases hhas : mapHas m (recipientIdOf it.recipient) = true
        · rw [if_pos hterm, if_pos hhas]
          have hk : mapHas m k = true := hrid ▸ hhas
          cases hg : mapGet? m k with
          | none =>
            have := mapGet?_isSome_iff.mpr hk
            rw [hg] at this
            cases this
          | some v => rfl
        · rw [if_pos hterm, if_neg hhas]
          have h1 : mapGet? (mapSet m (recipientIdOf it.recipient) (recipientNodeFor p it)) k
              = some (recipientNodeFor p it) := by
            rw [← hrid]
            exact mapGet?_mapSet_self m _ _
          have h2 : mapGet? m k = none := by
            apply mapGet?_eq_none_of_not_has
            rw [← hrid]
            simpa using hhas
          rw [h1, h2]
          rfl
      · rw [List.find?_cons_of_neg _ (by simp [hrid])]
        by_cases hhas : mapHas m (recipientIdOf it.recipient) = true
        · rw [if_pos hterm, if_pos hhas]
        · rw [if_pos hterm, if_neg hhas,
            mapGet?_mapSet_ne m (recipientNodeFor p it) (fun e => hrid e.symm)]
    · rw [if_neg hterm, List.find?_cons_of_neg _ (by simp [hterm])]

theorem mapHas_addRecipientNodes_of_terminal (p : Profiles) {m : NodesMap}
    {items : List GrantItem} {item : GrantItem} (hmem : item ∈ items)
    (hterm : isTerminal item = true) :
    mapHas (addRecipientNodes p m items) (recipientIdOf item.recipient) = true := by
  induction items generalizing m with
  | nil => cases hmem
  | cons it rest ih =>
    rw [addRecipientNodes_cons]
    rcases List.mem_cons.mp hmem with he | hm
    · subst he
      rw [if_pos hterm]
      by_cases hhas : mapHas m (recipientIdOf item.recipient) = true
      · rw [if_pos hhas]
        exact mapHas_addRecipientNodes_mono p rest hhas
      · rw [if_neg hhas]
        exact mapHas_addRecipientNodes_mono p rest (by simp [mapHas_mapSet])
    · exact ih hm

theorem mapHas_fullNodesMap_of_terminal {items : List GrantItem} {profiles : Profiles}
    {item : GrantItem} (hmem : item ∈ items) (hterm : isTerminal item = true) :
    mapHas (fullNodesMap items profiles) (recipientIdOf item.recipient) = true :=
  mapHas_addRecipientNodes_of_terminal profiles hmem hterm

/-! ### Well-formedness of the node map: stored ids match keys, keys are unique -/

def WFmap (m : NodesMap) : Prop :=
  (∀ p ∈ m, p.2.nodeId = p.1) ∧ (m.map Prod.fst).Nodup

theorem WFmap_mapSet {m : NodesMap} {k : String} {v : LocalSankeyNode}
    (h : WFmap m) (hv : v.nodeId = k) : WFmap (mapSet m k v) := by
  obtain ⟨hkeys, hnd⟩ := h
  constructor
  · intro p hp
    unfold mapSet at hp
    by_cases hh : mapHas m k
    · rw [if_pos hh] at hp
      obtain ⟨q, hq, he⟩ := List.mem_map.mp hp
      by_cases hqk : q.1 = k
      · rw [if_pos hqk] at he
        subst he
        exact hv
      · rw [if_neg hqk] at he
        subst he
        exact hkeys q hq
    · rw [if_neg hh] at hp
      rcases List.mem_append.mp hp with h1 | h2
      · exact hkeys p h1
      · rw [List.mem_singleton] at h2
        subst h2
        exact hv
  · rw [mapSet_fst]
    by_cases hh : mapHas m k
    · rw [if_pos hh]
      exact hnd
    · rw [if_neg hh]
      have hk : k ∉ m.map Prod.fst := by
        intro hmem
        obtain ⟨p, hp, he⟩ := List.mem_map.mp hmem
        exact absurd (mapHas_iff.mpr ⟨p, hp, he⟩) (by simpa using hh)
      rw [List.nodup_append]
      refine ⟨hnd, List.nodup_singleton k, ?_⟩
      intro a ha hb
      rw [List.mem_singleton] at hb
      exact hk (hb ▸ ha)

theorem WFmap_filter {m : NodesMap} (h : WFmap m) (f : String × LocalSankeyNode → Bool) :
    WFmap (m.filter f) := by
  obtain ⟨hkeys, hnd⟩ := h
  refine ⟨fun p hp => hkeys p (List.mem_of_mem_filter hp), ?_⟩
  exact hnd.sublist ((List.filter_sublist m).map Prod.fst)

theorem WFmap_addGrantNodes {m : NodesMap} (items : List GrantItem) (h : WFmap m) :
    WFmap (addGrantNodes m items) := by
  induction items generalizing m with
  | nil => exact h
  | cons it rest ih =>
    rw [addGrantNodes_cons]
    exact ih (WFmap_mapSet h rfl)

theorem WFmap_addRecipientNodes (p : Profiles) (items : List GrantItem) {m : NodesMap}
    (h : WFmap m) : WFmap (addRecipientNodes p m items) := by
  induction items generalizing m with
  | nil => exact h
  | cons it rest ih =>
    rw [addRecipientNodes_cons]
    apply ih
    split
    · split
      · exact h
      · refine WFmap_mapSet h ?_
        cases hp : profGet? p (jsToLower it.recipient) <;> simp [recipientNodeFor, hp]
    · exact h

theorem WFmap_fullNodesMap (items : List GrantItem) (profiles : Profiles) :
    WFmap (fullNodesMap items profiles) := by
  apply WFmap_addRecipientNodes
  apply WFmap_addGrantNodes
  exact ⟨by simp [fundingSourceNode], by simp⟩

/-- The node map right before the connectivity filter. -/
def preFilterMap (items : List GrantItem) (profiles : Profiles) : NodesMap :=
  removeUnusedFundingSource (fullNodesMap items profiles) (preFilterLinks items profiles)

/-- The node map after the connectivity filter. -/
def finalMap (items : List GrantItem) (profiles : Profiles) : NodesMap :=
  filterNodes (preFilterMap items profiles) (preFilterLinks items profiles)

theorem buildGraph_nodes (items : List GrantItem) (profiles : Profiles) :
    (buildGraph items profiles).nodes = (finalMap items profiles).map Prod.snd := rfl

theorem buildGraph_links (items : List GrantItem) (profiles : Profiles) :
    (buildGraph items profiles).links
      = filterLinks (finalMap items profiles) (preFilterLinks items profiles) := rfl

theorem WFmap_preFilterMap (items : List GrantItem) (profiles : Profiles) :
    WFmap (preFilterMap items profiles) := by
  unfold preFilterMap removeUnusedFundingSource
  split
  · exact WFmap_fullNodesMap items profiles
  · unfold mapDelete
    exact WFmap_filter (WFmap_fullNodesMap items profiles) _

theorem WFmap_finalMap (items : List GrantItem) (profiles : Profiles) :
    WFmap (finalMap items profiles) := by
  unfold finalMap filterNodes
  exact WFmap_filter (WFmap_preFilterMap items profiles) _

theorem mem_filterNodes {m : NodesMap} {links : List LocalSankeyLink}
    {p : String × LocalSankeyNode} :
    p ∈ filterNodes m links ↔ p ∈ m ∧ touches links p.1 = true := by
  simp [filterNodes, List.mem_filter]

theorem mapHas_filterNodes_iff {m : NodesMap} {links : List LocalSankeyLink} {k : String} :
    mapHas (filterNodes m links) k = true ↔ mapHas m k = true ∧ touches links k = true := by
  constructor
  · intro h
    obtain ⟨p, hp, he⟩ := mapHas_iff.mp h
    rw [mem_filterNodes] at hp
    exact ⟨mapHas_iff.mpr ⟨p, hp.1, he⟩, he ▸ hp.2⟩
  · rintro ⟨h1, h2⟩
    obtain ⟨p, hp, he⟩ := mapHas_iff.mp h1
    exact mapHas_iff.mpr ⟨p, mem_filterNodes.mpr ⟨hp, he.symm ▸ h2⟩, he⟩

theorem target_has_of_mem_preFilterLinks {items : List GrantItem} {profiles : Profiles}
    {l : LocalSankeyLink} (h : l ∈ preFilterLinks items profiles) :
    mapHas (fullNodesMap items profiles) l.target = true := by
  simp only [preFilterLinks, List.mem_append] at h
  rcases h with h | h
  · obtain ⟨it, hit, he⟩ := List.mem_filterMap.mp h
    unfold inboundLinkFor at he
    by_cases h1 : jsLe0 (parseFloat it.monthlyIncomingFlowRate) = true
    · rw [if_pos h1] at he
      cases he
    · rw [if_neg h1] at he
      by_cases h2 : mapHas (fullNodesMap items profiles) it.id = true
      · rw [if_pos h2] at he
        injection he with he2
        subst he2
        exact h2
      · rw [if_neg h2] at he
        cases he
  · obtain ⟨it, hit, he⟩ := List.mem_filterMap.mp h
    unfold terminalLinkFor at he
    by_cases h1 : isTerminal it = true
    · rw [if_pos h1] at he
      by_cases h2 : (jsGt0 (parseFloat it.monthlyIncomingFlowRate)
          && mapHas (fullNodesMap items profiles) (recipientIdOf it.recipient)) = true
      · rw [if_pos h2] at he
        injection he with he2
        subst he2
        exact (Bool.and_eq_true _ _).mp h2 |>.2
      · rw [if_neg h2] at he
        cases he
    · rw [if_neg h1] at he
      cases he

/-- Claim C4: the Funding Source node appears in the output node list exactly when
some link of the output link list has the Funding Source id as its source. -/
theorem fundingSource_in_output_iff_sourced (items : List GrantItem) (profiles : Profiles) :
    (∃ n ∈ (buildGraph items profiles).nodes, n.nodeId = FUNDING_SOURCE_ID)
    ↔ ∃ l ∈ (buildGraph items profiles).links, l.source = FUNDING_SOURCE_ID := by
  rw [buildGraph_nodes, buildGraph_links]
  constructor
  · rintro ⟨n, hn, hid⟩
    obtain ⟨p, hp, he⟩ := List.mem_map.mp hn
    have hkey : p.1 = FUNDING_SOURCE_ID := by
      rw [← (WFmap_finalMap items profiles).1 p hp, he, hid]
    have hhasfn : mapHas (finalMap items profiles) FUNDING_SOURCE_ID = true :=
      mapHas_iff.mpr ⟨p, hp, hkey⟩
    have hpm := mem_filterNodes.mp hp
    have hsome : (preFilterLinks items profiles).any
        (fun l => decide (l.source = FUNDING_SOURCE_ID)) = true := by
      by_contra hno
      have hdel : preFilterMap items profiles
          = mapDelete (fullNodesMap items profiles) FUNDING_SOURCE_ID := by
        unfold preFilterMap removeUnusedFundingSource
        rw [if_neg hno]
      have hhaspm : mapHas (preFilterMap items profiles) FUNDING_SOURCE_ID = true :=
        mapHas_iff.mpr ⟨p, hpm.1, hkey⟩
      rw [hdel, mapHas_mapDelete_self] at hhaspm
      cases hhaspm
    obtain ⟨L, hL, hLs⟩ := List.any_eq_true.mp hsome
    have hLsrc : L.source = FUNDING_SOURCE_ID := by simpa using hLs
    refine ⟨L, ?_, hLsrc⟩
    unfold filterLinks
    rw [List.mem_filter, Bool.and_eq_true]
    refine ⟨hL, ?_, ?_⟩
    · rw [hLsrc]
      exact hhasfn
    · by_cases htFS : L.target = FUNDING_SOURCE_ID
      · rw [htFS]
        exact hhasfn
      · unfold finalMap
        apply mapHas_filterNodes_iff.mpr
        constructor
        · have hpf : preFilterMap items profiles = fullNodesMap items profiles := by
            unfold preFilterMap removeUnusedFundingSource
            rw [if_pos hsome]
          rw [hpf]
          exact target_has_of_mem_preFilterLinks hL
        · exact List.any_eq_true.mpr ⟨L, hL, by simp⟩
  · rintro ⟨l, hl, hsrc⟩
    unfold filterLinks at hl
    rw [List.mem_filter, Bool.and_eq_true] at hl
    obtain ⟨hmem, hhs, hht⟩ := hl
    rw [hsrc] at hhs
    obtain ⟨p, hp, he⟩ := mapHas_iff.mp hhs
    refine ⟨p.2, List.mem_map_of_mem Prod.snd hp, ?_⟩
    rw [(WFmap_finalMap items profiles).1 p hp, he]

/-! ### Numeric-comparison and link-pass helper lemmas -/

theorem jsLe0_eq_false_of_jsGt0 {x : JsNum} (h : jsGt0 x = true) : jsLe0 x = false := by
  cases x with
  | nan => cases h
  | inf neg =>
    cases neg with
    | false => rfl
    | true => cases h
  | num q =>
    simp only [jsGt0, decide_eq_true_eq] at h
    simp only [jsLe0, decide_eq_false_iff_not]
    linarith

theorem inboundLinkFor_eq_some {m : NodesMap} {item : GrantItem}
    (hle : jsLe0 (parseFloat item.monthlyIncomingFlowRate) = false)
    (hhas : mapHas m item.id = true) :
    inboundLinkFor m item
      = some { source := actualSourceOf m item, target := item.id,
               value := parseFloat item.monthlyIncomingFlowRate } := by
  unfold inboundLinkFor
  rw [if_neg (by simp [hle]), if_pos hhas]

theorem terminalLinkFor_eq_some {m : NodesMap} {item : GrantItem}
    (hterm : isTerminal item = true)
    (hgt : jsGt0 (parseFloat item.monthlyIncomingFlowRate) = true)
    (hhas : mapHas m (recipientIdOf item.recipient) = true) :
    terminalLinkFor m item
      = some { source := item.id, target := recipientIdOf item.recipient,
               value := parseFloat item.monthlyIncomingFlowRate } := by
  unfold terminalLinkFor
  rw [if_pos hterm, if_pos (by rw [hgt, hhas]; rfl)]

/-! ### String-id lemmas -/

theorem recipientIdOf_ne_fundingSourceId (addr : String) :
    recipientIdOf addr ≠ FUNDING_SOURCE_ID := by
  intro h
  have hd : ("recipient_" : String).data ++ addr.data = FUNDING_SOURCE_ID.data := by
    rw [← String.data_append]
    exact congrArg String.data h
  have h1 : ("recipient_" : String).data = 'r' :: ("ecipient_" : String).data := rfl
  have h2 : FUNDING_SOURCE_ID.data = '_' :: ("__funding_source___" : String).data := rfl
  rw [h1, h2, List.cons_append] at hd
  injection hd with hc _
  exact absurd hc (by decide)

theorem recipientIdOf_inj {a b : String} (h : recipientIdOf a = recipientIdOf b) : a = b := by
  have hd : ("recipient_" : String).data ++ a.data = ("recipient_" : String).data ++ b.data := by
    rw [← String.data_append, ← String.data_append]
    exact congrArg String.data h
  exact String.ext (List.append_cancel_left hd)

theorem find?_congr_items {p q : GrantItem → Bool} (h : ∀ it, p it = q it) :
    ∀ l : List GrantItem, l.find? p = l.find? q := by
  intro l
  induction l with
  | nil => rfl
  | cons a l ih =>
    by_cases ha : p a = true
    · rw [List.find?_cons_of_pos _ ha, List.find?_cons_of_pos _ ((h a).symm.trans ha)]
    · rw [List.find?_cons_of_neg _ ha, List.find?_cons_of_neg _ (by rw [← h a]; exact ha), ih]

/-! ### Concrete inputs used by counterexamples and witnesses -/

/-- A grant whose incoming rate does not parse as a number. -/
def exNanIncoming : GrantItem :=
  { title := "Bad", status := 1, recipient := "0xabc"
    monthlyIncomingFlowRate := "notanumber", monthlyOutgoingFlowRate := "5"
    flowId := none, isFlow := false, id := "gN" }

/-- A grant whose outgoing rate does not parse as a number. -/
def exNanOutgoing : GrantItem :=
  { title := "Bad2", status := 1, recipient := "0xdef"
    monthlyIncomingFlowRate := "7", monthlyOutgoingFlowRate := "oops"
    flowId := none, isFlow := false, id := "gM" }

/-- Terminal grant whose recipient address is mixed-case. -/
def exCaseA : GrantItem :=
  { title := "A", status := 1, recipient := "0xAbc"
    monthlyIncomingFlowRate := "10", monthlyOutgoingFlowRate := "0"
    flowId := none, isFlow := false, id := "ga" }

/-- Terminal grant whose recipient address differs from `exCaseA` only by case. -/
def exCaseB : GrantItem :=
  { title := "B", status := 1, recipient := "0xABC"
    monthlyIncomingFlowRate := "10", monthlyOutgoingFlowRate := "0"
    flowId := none, isFlow := false, id := "gb" }

/-- A grant whose id is the reserved Funding Source id. -/
def exImpostor : GrantItem :=
  { title := "Impostor", status := 1, recipient := ""
    monthlyIncomingFlowRate := "5", monthlyOutgoingFlowRate := "1"
    flowId := none, isFlow := false, id := FUNDING_SOURCE_ID }

/-! ### Claim C1 -/

/-- Claim C1 counterexample: a grant whose `monthlyIncomingFlowRate` does not parse
still contributes an inbound link (carrying NaN), because `NaN <= 0` is false in JS,
and a grant whose `monthlyOutgoingFlowRate` does not parse is NOT treated as
terminal, because `NaN === 0` is false — both contrary to the claim. -/
theorem nan_rate_counterexample :
    parseFloat exNanIncoming.monthlyIncomingFlowRate = JsNum.nan
    ∧ preFilterLinks [exNanIncoming] []
        = [{ source := FUNDING_SOURCE_ID, target := "gN", value := JsNum.nan }]
    ∧ parseFloat exNanOutgoing.monthlyOutgoingFlowRate = JsNum.nan
    ∧ exNanOutgoing.recipient ≠ ""
    ∧ isTerminal exNanOutgoing = false := by decide

/-- Claim C1 (amended): an unparsable `monthlyIncomingFlowRate` parses to NaN, which
fails the `<= 0` skip check, so the grant DOES contribute an inbound link carrying
NaN; it fails the `> 0` recipient-link gate, so no recipient link is contributed;
and an unparsable `monthlyOutgoingFlowRate` fails the `=== 0` check, so the grant
does not count as terminal even when its recipient is non-empty.  No error is
raised anywhere (all functions are total). -/
theorem nan_rate_behavior (items : List GrantItem) (profiles : Profiles)
    (item : GrantItem) (hmem : item ∈ items)
    (hin : parseFloat item.monthlyIncomingFlowRate = JsNum.nan) :
    inboundLinkFor (fullNodesMap items profiles) item
      = some { source := actualSourceOf (fullNodesMap items profiles) item,
               target := item.id, value := JsNum.nan }
    ∧ terminalLinkFor (fullNodesMap items profiles) item = none
    ∧ (∀ it : GrantItem, parseFloat it.monthlyOutgoingFlowRate = JsNum.nan →
        isTerminal it = false) := by
  refine ⟨?_, ?_, ?_⟩
  · rw [inboundLinkFor_eq_some (by rw [hin]; rfl) (mapHas_fullNodesMap_of_mem hmem), hin]
  · unfold terminalLinkFor
    by_cases hterm : isTerminal item = true
    · rw [if_pos hterm, if_neg (by simp [hin, jsGt0])]
    · rw [if_neg hterm]
  · intro it hout
    unfold isTerminal
    rw [hout]
    simp [jsEq0]

/-- Witness for `nan_rate_behavior` at the concrete unparsable-rate grant. -/
theorem nan_rate_behavior_witness :
    parseFloat exNanIncoming.monthlyIncomingFlowRate = JsNum.nan
    ∧ inboundLinkFor (fullNodesMap [exNanIncoming] []) exNanIncoming
        = some { source := actualSourceOf (fullNodesMap [exNanIncoming] []) exNanIncoming,
                 target := exNanIncoming.id, value := JsNum.nan }
    ∧ terminalLinkFor (fullNodesMap [exNanIncoming] []) exNanIncoming = none := by
  have h := nan_rate_behavior [exNanIncoming] [] exNanIncoming (by decide) (by decide)
  exact ⟨by decide, h.1, h.2.1⟩

/-! ### Claim C2 -/

/-- Claim C2 counterexample: two terminal grants whose recipient addresses differ
only by letter case produce two distinct recipient nodes in the final graph whose
ids coincide after case-insensitive normalization. -/
theorem recipient_case_counterexample :
    recipientNodeFor [] exCaseA ∈ (buildGraph [exCaseA, exCaseB] []).nodes
    ∧ recipientNodeFor [] exCaseB ∈ (buildGraph [exCaseA, exCaseB] []).nodes
    ∧ recipientNodeFor [] exCaseA ≠ recipientNodeFor [] exCaseB
    ∧ (recipientNodeFor [] exCaseA).isRecipient = some true
    ∧ (recipientNodeFor [] exCaseB).isRecipient = some true
    ∧ jsToLower (recipientNodeFor [] exCaseA).nodeId
        = jsToLower (recipientNodeFor [] exCaseB).nodeId := by decide

/-- Claim C2 (amended): node ids in the built graph are unique as exact strings —
in particular at most one recipient node exists per exact (case-sensitive) address
string — but addresses that differ only by case yield distinct recipient nodes. -/
theorem nodeIds_nodup (items : List GrantItem) (profiles : Profiles) :
    ((buildGraph items profiles).nodes.map LocalSankeyNode.nodeId).Nodup := by
  rw [buildGraph_nodes, List.map_map]
  have hwf := WFmap_finalMap items profiles
  have hmc : (finalMap items profiles).map (LocalSankeyNode.nodeId ∘ Prod.snd)
      = (finalMap items profiles).map Prod.fst :=
    List.map_congr_left (fun p hp => hwf.1 p hp)
  rw [hmc]
  exact hwf.2

/-! ### Claim C3 -/

/-- Claim C3 counterexample: a grant whose id is the reserved Funding Source id
overwrites the synthetic node; the node stored under the reserved id (and kept in
the final output) is a Grant node named "Impostor", not the Funding Source node. -/
theorem fundingSource_collision_counterexample :
    mapGet? (fullNodesMap [exImpostor] []) FUNDING_SOURCE_ID = some (grantNode exImpostor)
    ∧ grantNode exImpostor ≠ fundingSourceNode
    ∧ (buildGraph [exImpostor] []).nodes = [grantNode exImpostor]
    ∧ (grantNode exImpostor).name = "Impostor" := by decide

/-- Claim C3 (amended): provided no input grant has the reserved id
`___funding_source___` as its own id, the node stored under the reserved id in the
built node map is the synthetic Funding Source node. -/
theorem fundingSource_preserved (items : List GrantItem) (profiles : Profiles)
    (h : ∀ item ∈ items, item.id ≠ FUNDING_SOURCE_ID) :
    mapGet? (fullNodesMap items profiles) FUNDING_SOURCE_ID = some fundingSourceNode := by
  unfold fullNodesMap
  rw [addRecipientNodes_get]
  have hg : mapGet? (addGrantNodes [(FUNDING_SOURCE_ID, fundingSourceNode)] items)
      FUNDING_SOURCE_ID = some fundingSourceNode := by
    rw [addGrantNodes_get]
    have hfl : items.filter (fun it => decide (it.id = FUNDING_SOURCE_ID)) = [] :=
      List.filter_eq_nil_iff.mpr (fun it hit => by simpa using h it hit)
    rw [hfl]
    simp [mapGet?_cons]
  rw [hg]

/-- Witness for `fundingSource_preserved` on the single-grant example input. -/
theorem fundingSource_preserved_witness :
    mapGet? (fullNodesMap [exGrant1] []) FUNDING_SOURCE_ID = some fundingSourceNode :=
  fundingSource_preserved [exGrant1] [] (by decide)

/-! ### Claim C5 -/

/-- Claim C5: a grant with outgoing flow exactly 0, non-empty recipient, and
positive incoming flow contributes exactly two links to the pre-filter link list —
one inbound link targeting the grant node and one link from the grant node to its
recipient node — both carrying the grant's incoming flow as value. -/
theorem terminal_grant_two_links (items : List GrantItem) (profiles : Profiles)
    (item : GrantItem) (hmem : item ∈ items)
    (hout : jsEq0 (parseFloat item.monthlyOutgoingFlowRate) = true)
    (hrec : item.recipient ≠ "")
    (hin : jsGt0 (parseFloat item.monthlyIncomingFlowRate) = true) :
    inboundLinkFor (fullNodesMap items profiles) item
        = some { source := actualSourceOf (fullNodesMap items profiles) item,
                 target := item.id,
                 value := parseFloat item.monthlyIncomingFlowRate }
    ∧ terminalLinkFor (fullNodesMap items profiles) item
        = some { source := item.id, target := recipientIdOf item.recipient,
                 value := parseFloat item.monthlyIncomingFlowRate }
    ∧ { source := actualSourceOf (fullNodesMap items profiles) item, target := item.id,
        value := parseFloat item.monthlyIncomingFlowRate } ∈ preFilterLinks items profiles
    ∧ { source := item.id, target := recipientIdOf item.recipient,
        value := parseFloat item.monthlyIncomingFlowRate } ∈ preFilterLinks items profiles := by
  have hterm : isTerminal item = true := by
    unfold isTerminal
    rw [hout]
    simpa using hrec
  have h1 : inboundLinkFor (fullNodesMap items profiles) item
      = some { source := actualSourceOf (fullNodesMap items profiles) item,
               target := item.id, value := parseFloat item.monthlyIncomingFlowRate } :=
    inboundLinkFor_eq_some (jsLe0_eq_false_of_jsGt0 hin) (mapHas_fullNodesMap_of_mem hmem)
  have h2 : terminalLinkFor (fullNodesMap items profiles) item
      = some { source := item.id, target := recipientIdOf item.recipient,
               value := parseFloat item.monthlyIncomingFlowRate } :=
    terminalLinkFor_eq_some hterm hin (mapHas_fullNodesMap_of_terminal hmem hterm)
  refine ⟨h1, h2, ?_, ?_⟩
  · simp only [preFilterLinks, List.mem_append]
    exact Or.inl (List.mem_filterMap.mpr ⟨item, hmem, h1⟩)
  · simp only [preFilterLinks, List.mem_append]
    exact Or.inr (List.mem_filterMap.mpr ⟨item, hmem, h2⟩)

/-- Witness for `terminal_grant_two_links` on the single-grant example input. -/
theorem terminal_grant_two_links_witness :
    jsGt0 (parseFloat exGrant1.monthlyIncomingFlowRate) = true
    ∧ inboundLinkFor (fullNodesMap [exGrant1] []) exGrant1
        = some { source := actualSourceOf (fullNodesMap [exGrant1] []) exGrant1,
                 target := exGrant1.id,
                 value := parseFloat exGrant1.monthlyIncomingFlowRate }
    ∧ terminalLinkFor (fullNodesMap [exGrant1] []) exGrant1
        = some { source := exGrant1.id, target := recipientIdOf exGrant1.recipient,
                 value := parseFloat exGrant1.monthlyIncomingFlowRate } := by
  have h := terminal_grant_two_links [exGrant1] [] exGrant1
    (by decide) (by decide) (by decide) (by decide)
  exact ⟨by decide, h.1, h.2.1⟩

/-! ### Claim C6 -/

/-- A grant node with the empty string as its id. -/
def exEmptyIdGrant : GrantItem :=
  { title := "", status := 1, recipient := "", monthlyIncomingFlowRate := "0"
    monthlyOutgoingFlowRate := "1", flowId := none, isFlow := false, id := "" }

/-- A grant whose `flowId` is the empty string (non-null but falsy in JS). -/
def exEmptyFlowIdGrant : GrantItem :=
  { title := "G2", status := 1, recipient := "", monthlyIncomingFlowRate := "5"
    monthlyOutgoingFlowRate := "1", flowId := some "", isFlow := false, id := "g2" }

/-- Claim C6 counterexample: a non-null `flowId` that is the empty string names a
node present in the map (a grant with the empty id exists), yet the inbound link's
source falls back to the Funding Source, because JS truthiness rejects `""`. -/
theorem empty_flowId_counterexample :
    exEmptyFlowIdGrant.flowId = some ""
    ∧ mapHas (fullNodesMap [exEmptyIdGrant, exEmptyFlowIdGrant] []) "" = true
    ∧ jsGt0 (parseFloat exEmptyFlowIdGrant.monthlyIncomingFlowRate) = true
    ∧ inboundLinkFor (fullNodesMap [exEmptyIdGrant, exEmptyFlowIdGrant] []) exEmptyFlowIdGrant
        = some { source := FUNDING_SOURCE_ID, target := "g2", value := JsNum.num 5 }
    ∧ FUNDING_SOURCE_ID ≠ "" := by decide

/-- Claim C6 (amended): for every grant with positive parsed incoming flow, the
builder appends exactly one inbound link targeting that grant with value equal to
the incoming flow; its source is the grant's `flowId` when that id is non-null,
NON-EMPTY, and present in the node map at link-construction time, and the Funding
Source id otherwise.  The fallback is decided only at construction time: the final
link list is a sublist of the construction-time list, so filtering only drops
links and never rewrites a source. -/
theorem inbound_link_source (items : List GrantItem) (profiles : Profiles)
    (item : GrantItem) (hmem : item ∈ items)
    (hin : jsGt0 (parseFloat item.monthlyIncomingFlowRate) = true) :
    inboundLinkFor (fullNodesMap items profiles) item
      = some { source :=
                 match item.flowId with
                 | some sid =>
                     if sid ≠ "" ∧ mapHas (fullNodesMap items profiles) sid = true then sid
                     else FUNDING_SOURCE_ID
                 | none => FUNDING_SOURCE_ID,
               target := item.id, value := parseFloat item.monthlyIncomingFlowRate }
    ∧ List.Sublist (buildGraph items profiles).links (preFilterLinks items profiles) := by
  constructor
  · rw [inboundLinkFor_eq_some (jsLe0_eq_false_of_jsGt0 hin) (mapHas_fullNodesMap_of_mem hmem)]
    have hsrc : actualSourceOf (fullNodesMap items profiles) item
        = match item.flowId with
          | some sid =>
              if sid ≠ "" ∧ mapHas (fullNodesMap items profiles) sid = true then sid
              else FUNDING_SOURCE_ID
          | none => FUNDING_SOURCE_ID := by
      unfold actualSourceOf
      cases item.flowId with
      | none => rfl
      | some sid =>
        by_cases h1 : sid = ""
        · subst h1
          simp
        · by_cases h2 : mapHas (fullNodesMap items profiles) sid = true
          · simp [h1, h2]
          · simp [h1, h2]
    rw [hsrc]
  · rw [buildGraph_links]
    unfold filterLinks
    exact List.filter_sublist _

/-- A flow node funding a child grant, for the `inbound_link_source` witness. -/
def exParentFlow : GrantItem :=
  { title := "Parent", status := 1, recipient := "", monthlyIncomingFlowRate := "100"
    monthlyOutgoingFlowRate := "50", flowId := none, isFlow := true, id := "p1" }

/-- A terminal child grant funded by `exParentFlow`. -/
def exChildGrant : GrantItem :=
  { title := "Child", status := 1, recipient := "0xdef", monthlyIncomingFlowRate := "50"
    monthlyOutgoingFlowRate := "0", flowId := some "p1", isFlow := false, id := "c1" }

/-- Witness for `inbound_link_source`: the child grant's inbound link comes from
its parent flow node, which is present in the map. -/
theorem inbound_link_source_witness :
    jsGt0 (parseFloat exChildGrant.monthlyIncomingFlowRate) = true
    ∧ inboundLinkFor (fullNodesMap [exParentFlow, exChildGrant] []) exChildGrant
        = some { source :=
                   match exChildGrant.flowId with
                   | some sid =>
                       if sid ≠ "" ∧ mapHas (fullNodesMap [exParentFlow, exChildGrant] []) sid = true
                       then sid else FUNDING_SOURCE_ID
                   | none => FUNDING_SOURCE_ID,
                 target := exChildGrant.id,
                 value := parseFloat exChildGrant.monthlyIncomingFlowRate } := by
  have h := inbound_link_source [exParentFlow, exChildGrant] [] exChildGrant
    (by decide) (by decide)
  exact ⟨by decide, h.1⟩

/-! ### Claim C7 -/

/-- Claim C7: on the spec's single-grant worked example the builder outputs exactly
the Funding Source node, the grant node and the synthesized recipient node, and
exactly the two links (Funding Source → g1, 100) and (g1 → recipient_0xabc, 100). -/
theorem single_grant_example :
    (buildGraph [exGrant1] []).nodes.map LocalSankeyNode.nodeId
        = [FUNDING_SOURCE_ID, "g1", "recipient_0xabc"]
    ∧ (buildGraph [exGrant1] []).nodes.map LocalSankeyNode.name
        = ["Funding Source", "Grant 1", "0xabc"]
    ∧ (buildGraph [exGrant1] []).links
        = [{ source := FUNDING_SOURCE_ID, target := "g1", value := JsNum.num 100 },
           { source := "g1", target := "recipient_0xabc", value := JsNum.num 100 }] := by
  decide

/-! ### Claim C8 -/

/-- Claim C8: the same grant with zero incoming flow yields an empty graph — the
Funding Source node is removed, the grant node and the synthesized recipient node
are dropped by the connectivity pass, and no link survives. -/
theorem zero_incoming_example :
    buildGraph [exGrant1Zero] [] = { nodes := [], links := [] } := by decide

/-! ### Claim C9 -/

/-- A node touched by a dangling link only. -/
def exNodeA : LocalSankeyNode := { nodeId := "A", name := "A" }

/-- Another plain node. -/
def exNodeB : LocalSankeyNode := { nodeId := "B", name := "B" }

/-- A link whose target names no node in the map. -/
def exDanglingLink : LocalSankeyLink := { source := "A", target := "C", value := JsNum.num 1 }

/-- A link between two present nodes. -/
def exLinkAB : LocalSankeyLink := { source := "A", target := "B", value := JsNum.num 2 }

/-- Claim C9 counterexample: on a pair whose link dangles (its target names no
node), the connectivity filter keeps node A but drops the link, leaving A with
zero incident links; re-applying the filter then removes A, so the filter is not
idempotent in general. -/
theorem connectivityFilter_not_idempotent :
    connectivityFilter [("A", exNodeA)] [exDanglingLink] = ([("A", exNodeA)], [])
    ∧ connectivityFilter
        (connectivityFilter [("A", exNodeA)] [exDanglingLink]).1
        (connectivityFilter [("A", exNodeA)] [exDanglingLink]).2
      ≠ connectivityFilter [("A", exNodeA)] [exDanglingLink] := by decide

/-- Claim C9 (amended): on pairs whose links all reference nodes present in the
node map — which is the claim's intended domain — the connectivity filter keeps
exactly the touched nodes and is idempotent. -/
theorem connectivityFilter_idem (m : NodesMap) (links : List LocalSankeyLink)
    (hwf : ∀ l ∈ links, mapHas m l.source = true ∧ mapHas m l.target = true) :
    connectivityFilter (connectivityFilter m links).1 (connectivityFilter m links).2
        = connectivityFilter m links
    ∧ ∀ p ∈ (connectivityFilter m links).1, touches links p.1 = true := by
  have hfl : filterLinks (filterNodes m links) links = links := by
    unfold filterLinks
    apply List.filter_eq_self.mpr
    intro l hl
    rw [Bool.and_eq_true]
    constructor
    · exact mapHas_filterNodes_iff.mpr
        ⟨(hwf l hl).1, List.any_eq_true.mpr ⟨l, hl, by simp⟩⟩
    · exact mapHas_filterNodes_iff.mpr
        ⟨(hwf l hl).2, List.any_eq_true.mpr ⟨l, hl, by simp⟩⟩
  have hcf : connectivityFilter m links = (filterNodes m links, links) := by
    unfold connectivityFilter
    rw [hfl]
  constructor
  · rw [hcf]
    unfold connectivityFilter
    have h2 : filterNodes (filterNodes m links) links = filterNodes m links := by
      unfold filterNodes
      apply List.filter_eq_self.mpr
      intro p hp
      exact (mem_filterNodes.mp hp).2
    rw [h2, hfl]
  · intro p hp
    rw [hcf] at hp
    exact (mem_filterNodes.mp hp).2

/-- Witness for `connectivityFilter_idem` on a two-node, one-link pair. -/
theorem connectivityFilter_idem_witness :
    connectivityFilter
        (connectivityFilter [("A", exNodeA), ("B", exNodeB)] [exLinkAB]).1
        (connectivityFilter [("A", exNodeA), ("B", exNodeB)] [exLinkAB]).2
      = connectivityFilter [("A", exNodeA), ("B", exNodeB)] [exLinkAB] :=
  (connectivityFilter_idem [("A", exNodeA), ("B", exNodeB)] [exLinkAB] (by decide)).1

/-! ### Claim C10 -/

/-- Claim C10: when several terminal grants share the exact same recipient address,
the single recipient node keeps the metadata resolved for the FIRST such grant in
input order (later grants never overwrite it), whereas a duplicated grant id keeps
the LAST occurrence's data. -/
theorem recipient_first_wins_grant_last_wins (items : List GrantItem) (profiles : Profiles)
    (addr gid : String) (it0 itL : GrantItem)
    (h0 : items.find? (fun it => isTerminal it && decide (it.recipient = addr)) = some it0)
    (hnog : ∀ it ∈ items, it.id ≠ recipientIdOf addr)
    (hL : (items.filter (fun it => decide (it.id = gid))).getLast? = some itL) :
    mapGet? (fullNodesMap items profiles) (recipientIdOf addr)
        = some (recipientNodeFor profiles it0)
    ∧ mapGet? (fullNodesMap items profiles) gid = some (grantNode itL) := by
  constructor
  · unfold fullNodesMap
    rw [addRecipientNodes_get]
    have hnone : mapGet? (addGrantNodes [(FUNDING_SOURCE_ID, fundingSourceNode)] items)
        (recipientIdOf addr) = none := by
      rw [addGrantNodes_get]
      have hfl : items.filter (fun it => decide (it.id = recipientIdOf addr)) = [] :=
        List.filter_eq_nil_iff.mpr (fun it hit => by simpa using hnog it hit)
      rw [hfl]
      have hne : FUNDING_SOURCE_ID ≠ recipientIdOf addr :=
        (recipientIdOf_ne_fundingSourceId addr).symm
      simp [mapGet?_cons, mapGet?, hne]
    rw [hnone]
    have hpred : ∀ it : GrantItem,
        (isTerminal it && decide (recipientIdOf it.recipient = recipientIdOf addr))
          = (isTerminal it && decide (it.recipient = addr)) := by
      intro it
      by_cases he : it.recipient = addr
      · simp [he]
      · have hne2 : ¬ (recipientIdOf it.recipient = recipientIdOf addr) :=
          fun e => he (recipientIdOf_inj e)
        simp [he, hne2]
    rw [find?_congr_items hpred items, h0]
    rfl
  · unfold fullNodesMap
    rw [addRecipientNodes_get]
    have hsome : mapGet? (addGrantNodes [(FUNDING_SOURCE_ID, fundingSourceNode)] items) gid
        = some (grantNode itL) := by
      rw [addGrantNodes_get, hL]
    rw [hsome]

/-- First of two terminal grants sharing recipient address and grant id. -/
def exDupA : GrantItem :=
  { title := "First", status := 1, recipient := "0xAbc", monthlyIncomingFlowRate := "10"
    monthlyOutgoingFlowRate := "0", flowId := none, isFlow := false, id := "g1" }

/-- Second grant with the same id and the same recipient address as `exDupA`. -/
def exDupB : GrantItem :=
  { title := "Second", status := 1, recipient := "0xAbc", monthlyIncomingFlowRate := "20"
    monthlyOutgoingFlowRate := "0", flowId := none, isFlow := false, id := "g1" }

/-- Witness for `recipient_first_wins_grant_last_wins`: with two duplicated grants,
the recipient node carries the first grant's resolution while the grant node under
the duplicated id carries the second grant's data. -/
theorem recipient_first_wins_grant_last_wins_witness :
    mapGet? (fullNodesMap [exDupA, exDupB] []) (recipientIdOf "0xAbc")
        = some (recipientNodeFor [] exDupA)
    ∧ mapGet? (fullNodesMap [exDupA, exDupB] []) "g1" = some (grantNode exDupB) :=
  recipient_first_wins_grant_last_wins [exDupA, exDupB] [] "0xAbc" "g1" exDupA exDupB
    (by decide) (by decide) (by decide)
